import Mathlib

/-!
Shallow embedding of the tiny-rpc (geerpc) repository: wire-protocol types
(`Option` negotiation record, `Header`), the codec registry and the Gob
codec's `Write` method, the server's per-connection request loop
(`ServeConn`, `readRequest`, `serveCodec`, `handleRequest`), and the client
call-lifecycle machinery (`registerCall`, `removeCall`, `terminateCalls`,
`receive`, `send`, `parseOptions`).

Go's `error` values are modelled as `Option String` (`none` = nil error),
Go maps as association lists with map-semantics helpers, goroutine channel
signals (`call.done()`) as a `doneCount` counter on the call record, and
the outcomes of I/O operations (decode/encode/read results) as explicit
parameters, since the embedding is pure.
-/

/-- Codec type tag (`codec.Type`, a Go string). -/
abbrev CodecType := String

/-- The Gob codec tag (`codec.GobType`). -/
def GobType : CodecType := "application/gob"

/-- The (unimplemented) JSON codec tag (`codec.JsonType`). -/
def JsonType : CodecType := "application/json"

/-- Constructors held by the codec registry. Exactly one implementation is
registered by `codec.init`: `NewGobCodec`. -/
inductive CodecCtor where
  | newGobCodec
deriving DecidableEq, Repr

/-- The codec registry `codec.NewCodecFuncMap` after `init` ran: it maps
`GobType` to `NewGobCodec` and nothing else. Lookup of an unregistered tag
yields `none` (Go: nil function value). -/
def NewCodecFuncMap (t : CodecType) : Option CodecCtor :=
  if t = GobType then some .newGobCodec else none

/-- The protocol sentinel `geerpc.MagicNumber = 0x34252`. -/
def MagicNumber : Nat := 0x34252

/-- The negotiation record `geerpc.Option` (renamed: `Option` is taken by
the Lean prelude). -/
structure ProtocolOption where
  magicNumber : Nat
  codecType : CodecType
deriving DecidableEq, Repr

/-- The default option `geerpc.DefaultOption`: the sentinel magic number and
the Gob codec tag. -/
def DefaultOption : ProtocolOption :=
  { magicNumber := MagicNumber, codecType := GobType }

/-- The per-message envelope `codec.Header`. `seq` is a Go `uint64`, modelled
as `Nat` (no claim depends on 64-bit wraparound). -/
structure Header where
  serviceMethod : String
  seq : Nat
  error : String
deriving DecidableEq, Repr

/-! ### Gob codec `Write` (src/unnamed/part_000, `GobCodec.Write`)

The encoder results are passed in as `Option String` (`none` = success),
since encoding itself is I/O. The model records the returned error, whether
the buffered writer was flushed, and whether the connection was closed. -/

/-- Observable effects of one `GobCodec.Write` invocation. -/
structure GobWriteEffects where
  result : Option String
  flushed : Bool
  closed : Bool
deriving DecidableEq, Repr

/-- Model of `GobCodec.Write`: encode the header; if that fails return its
error, otherwise encode the body and return its error (or nil). The deferred
block always flushes the buffered writer and closes the connection exactly
when the returned error is non-nil. `encHeader`/`encBody` are the outcomes
the Gob encoder would produce for the two `Encode` calls. -/
def GobCodec.Write (encHeader encBody : Option String) : GobWriteEffects :=
  match encHeader with
  | some e => { result := some e, flushed := true, closed := true }
  | none =>
    match encBody with
    | some e => { result := some e, flushed := true, closed := true }
    | none => { result := none, flushed := true, closed := false }

/-! ### Server side (src/server.go, server half) -/

/-- Outcome of `Server.ServeConn` on one connection:
either the connection is closed without serving any request, or the server
proceeds to `serveCodec` with the constructed codec. -/
inductive ServeConnOutcome where
  | closedNoServe
  | serving (ctor : CodecCtor)
deriving DecidableEq, Repr

/-- Model of `Server.ServeConn`: JSON-decode the `Option` (the decode result
is the input, `Except` error = decode failure), reject a wrong magic number,
reject an unregistered codec tag, otherwise serve with the registered
constructor. -/
def ServeConn (optDecode : Except String ProtocolOption) : ServeConnOutcome :=
  match optDecode with
  | .error _ => .closedNoServe
  | .ok opt =>
    if opt.magicNumber ≠ MagicNumber then .closedNoServe
    else
      match NewCodecFuncMap opt.codecType with
      | none => .closedNoServe
      | some f => .serving f

/-- Server-side request record (`geerpc.request`): header plus the decoded
string argument (the argument type is hardcoded to string in this version).
-/
structure Request where
  h : Header
  argv : String
deriving DecidableEq, Repr

/-- Body of a response written by the server: either the placeholder
`invalidRequest` (an empty struct) or a string reply. -/
inductive RespBody where
  | invalidReq
  | str (s : String)
deriving DecidableEq, Repr

/-- One response on the wire: header plus body, as passed to `sendResponse`.
-/
structure ServerResponse where
  h : Header
  body : RespBody
deriving DecidableEq, Repr

/-- Model of `Server.readRequest` (which returns a Go `(*request, error)`
pair): a header-read failure yields `(nil, err)`; on header success the body
decode is attempted, but a body-decode failure is only logged — the argv
stays at its zero value `""` and the function returns `(req, nil)`.
`headerRead` and `bodyRead` are the outcomes of the two codec reads. -/
def readRequest (headerRead : Except String Header)
    (bodyRead : Except String String) : Option Request × Option String :=
  match headerRead with
  | .error e => (none, some e)
  | .ok h =>
    let argv := match bodyRead with
      | .ok v => v
      | .error _ => ""
    (some { h := h, argv := argv }, none)

/-- What one iteration of the `serveCodec` loop decides to do with the
result of `readRequest`. -/
inductive ServeStep where
  | breakLoop
  | errorResponse (resp : ServerResponse)
  | handle (req : Request)
deriving DecidableEq, Repr

/-- One iteration of `Server.serveCodec`: on a read error with no request,
break out of the loop; on a read error with a request, answer with the
error set in the header and the `invalidRequest` placeholder body and
continue; otherwise dispatch the request to `handleRequest`. The last
match arm is unreachable from `readRequest` (it never returns
`(none, none)`). -/
def serveCodecStep (headerRead : Except String Header)
    (bodyRead : Except String String) : ServeStep :=
  match readRequest headerRead bodyRead with
  | (req?, some e) =>
    match req? with
    | none => .breakLoop
    | some req => .errorResponse { h := { req.h with error := e }, body := .invalidReq }
  | (some req, none) => .handle req
  | (none, none) => .breakLoop

/-- Model of `Server.handleRequest`: the canned reply is
`fmt.Sprintf("rpc resp %d", req.h.Seq)` and is written back with the
request's header unchanged. -/
def handleRequest (req : Request) : ServerResponse :=
  { h := req.h, body := .str ("rpc resp " ++ toString req.h.seq) }

/-- The response `serveCodec` causes to be written for one read attempt:
none when the loop breaks, the error response in the (dead) recoverable
branch, and the `handleRequest` response for a dispatched request. -/
def serverResponse (headerRead : Except String Header)
    (bodyRead : Except String String) : Option ServerResponse :=
  match serveCodecStep headerRead bodyRead with
  | .breakLoop => none
  | .errorResponse resp => some resp
  | .handle req => some (handleRequest req)

/-! ### Client side (src/server.go, client half) -/

/-- The shutdown error `geerpc.ErrShutdown`. -/
def ErrShutdown : String := "connection is shut down"

/-- A client-side call record (`geerpc.Call`). The caller's reply
destination is modelled as `Option String` (`none` = not yet written), the
`Error` field as `Option String` (`none` = nil), and each send on the
`Done` channel (`call.done()`) as a `doneCount` increment. -/
structure Call where
  seq : Nat
  serviceMethod : String
  args : String
  reply : Option String
  error : Option String
  doneCount : Nat
deriving DecidableEq, Repr

/-- Go map lookup `m[k]` on the pending table. -/
def mapLookup (m : List (Nat × Call)) (k : Nat) : Option Call :=
  (m.find? (fun p => p.1 == k)).map (fun p => p.2)

/-- Go map `delete(m, k)`. -/
def mapErase (m : List (Nat × Call)) (k : Nat) : List (Nat × Call) :=
  m.filter (fun p => p.1 != k)

/-- Go map assignment `m[k] = v` (replaces any existing binding for `k`). -/
def mapInsert (m : List (Nat × Call)) (k : Nat) (v : Call) : List (Nat × Call) :=
  (k, v) :: mapErase m k

/-- The mutable state of a `geerpc.Client`: sequence counter, pending table,
and the two availability flags. The codec, option and reusable header are
not state the claims quantify over; the header written by `send` is modelled
in `send`'s result. -/
structure ClientState where
  seq : Nat
  pending : List (Nat × Call)
  closing : Bool
  shutdown : Bool
deriving DecidableEq, Repr

/-- The client state produced by `newClientCodec`: sequence counter starts
at 1 (0 means an invalid call), empty pending table, both flags false. -/
def newClientCodec : ClientState :=
  { seq := 1, pending := [], closing := false, shutdown := false }

/-- Model of `Client.registerCall`: fail with `ErrShutdown` when closing or
shut down (state untouched, the call untouched); otherwise stamp the call
with the current sequence number, insert it into the pending table, and
increment the counter. `client.seq` is a Go `uint64`, so the increment
wraps at `2 ^ 64`: after the counter reaches `2 ^ 64 - 1`, the next value
is 0. Returns the new state, the (possibly stamped) call, and the Go
`(uint64, error)` result as an `Except`. -/
def registerCall (st : ClientState) (call : Call) :
    ClientState × Call × Except String Nat :=
  if st.closing || st.shutdown then
    (st, call, .error ErrShutdown)
  else
    let call := { call with seq := st.seq }
    ({ st with pending := mapInsert st.pending call.seq call,
               seq := (st.seq + 1) % 2 ^ 64 },
     call, .ok call.seq)

/-- Model of `Client.removeCall`: look the call up, delete its key from the
pending table, return it (or `none` when absent). -/
def removeCall (st : ClientState) (s : Nat) : ClientState × Option Call :=
  ({ st with pending := mapErase st.pending s }, mapLookup st.pending s)

/-- Model of `Client.terminateCalls`: set the shutdown flag, and for every
call in the pending table set its error to `err` and signal its Done
channel. The pending table keeps its entries (the Go code never deletes
them here); the returned list is the calls as completed, in table order. -/
def terminateCalls (st : ClientState) (err : String) :
    ClientState × List Call :=
  let sweep := fun (c : Call) => { c with error := some err, doneCount := c.doneCount + 1 }
  ({ st with shutdown := true,
             pending := st.pending.map (fun p => (p.1, sweep p.2)) },
   st.pending.map (fun p => sweep p.2))

/-- Outcome of the single `ReadBody` call an iteration of the receive loop
performs. For a discard read (`ReadBody(nil)`) a successful value is simply
thrown away. -/
inductive BodyRead where
  | ok (v : String)
  | fail (e : String)
deriving DecidableEq, Repr

/-- The loop error contributed by a `ReadBody` outcome. -/
def bodyReadErr : BodyRead → Option String
  | .ok _ => none
  | .fail e => some e

/-- Observable result of one iteration of `Client.receive`. -/
structure ReceiveStep where
  state : ClientState
  completed : Option Call
  bodyConsumed : Bool
  loopErr : Option String
deriving DecidableEq, Repr

/-- One iteration of `Client.receive` after a header was read successfully:
remove the matching call from the pending table, then
+ no matching call: consume and discard the body (`ReadBody(nil)`);
+ header carries a server error: set the call's error from it, consume and
  discard the body, signal the call;
+ otherwise decode the body into the call's reply destination, prefixing a
  decode failure with `"reading body "`, and signal the call.
The loop continues exactly when `loopErr` is `none`. -/
def receiveStep (st : ClientState) (h : Header) (body : BodyRead) : ReceiveStep :=
  let (st1, call?) := removeCall st h.seq
  match call? with
  | none =>
    { state := st1, completed := none, bodyConsumed := true,
      loopErr := bodyReadErr body }
  | some call =>
    if h.error ≠ "" then
      { state := st1,
        completed := some { call with error := some h.error, doneCount := call.doneCount + 1 },
        bodyConsumed := true, loopErr := bodyReadErr body }
    else
      match body with
      | .ok v =>
        { state := st1,
          completed := some { call with reply := some v, doneCount := call.doneCount + 1 },
          bodyConsumed := true, loopErr := none }
      | .fail e =>
        let call := { call with error := some ("reading body " ++ e), doneCount := call.doneCount + 1 }
        { state := st1, completed := some call, bodyConsumed := true, loopErr := some e }

/-- The block `Client.send` runs when the codec write fails: remove the
call's entry; if a call was still there, complete it with the write error,
otherwise complete nothing (a fast response already consumed it). -/
def sendWriteFailHandler (st : ClientState) (s : Nat) (werr : String) :
    ClientState × Option Call :=
  let (st1, call?) := removeCall st s
  match call? with
  | some c => (st1, some { c with error := some werr, doneCount := c.doneCount + 1 })
  | none => (st1, none)

/-- Observable result of `Client.send`. -/
structure SendResult where
  state : ClientState
  completed : Option Call
  wroteAttempted : Bool
  sentHeader : Option Header
deriving DecidableEq, Repr

/-- Model of `Client.send`: register the call; on registration failure
complete it at once with that error, without touching the codec; on
success populate the header (service method, assigned sequence, empty
error) and ask the codec to write header plus args — `writeErr` is the
outcome that write would have. On write failure run the removal/completion
block. -/
def send (st : ClientState) (call : Call) (writeErr : Option String) : SendResult :=
  match registerCall st call with
  | (st1, call1, .error e) =>
    { state := st1,
      completed := some { call1 with error := some e, doneCount := call1.doneCount + 1 },
      wroteAttempted := false, sentHeader := none }
  | (st1, call1, .ok s) =>
    let h : Header := { serviceMethod := call1.serviceMethod, seq := s, error := "" }
    match writeErr with
    | none =>
      { state := st1, completed := none, wroteAttempted := true, sentHeader := some h }
    | some werr =>
      let (st2, done?) := sendWriteFailHandler st1 s werr
      { state := st2, completed := done?, wroteAttempted := true, sentHeader := some h }

/-- Register a list of calls one after another on the same client,
collecting the assigned sequence numbers; stop at the first failed
registration. -/
def registerMany : ClientState → List Call → ClientState × List Nat
  | st, [] => (st, [])
  | st, c :: cs =>
    match registerCall st c with
    | (st1, _, .ok s) =>
      let (st2, rest) := registerMany st1 cs
      (st2, s :: rest)
    | (st1, _, .error _) => (st1, [])

/-- Model of `geerpc.parseOptions` over the variadic `...*Option` slice
(`none` entries are Go nil pointers): an empty slice or a nil first entry
yields `DefaultOption`; more than one entry (with a non-nil first) is an
error; otherwise the single option has its magic number overwritten with
the default and an empty codec type replaced by the default codec type. -/
def parseOptions : List (Option ProtocolOption) → Except String ProtocolOption
  | [] => .ok DefaultOption
  | none :: _ => .ok DefaultOption
  | some o :: rest =>
    if rest.length ≠ 0 then .error "number of options is more than 1"
    else .ok { o with magicNumber := DefaultOption.magicNumber,
                      codecType := if o.codecType = "" then DefaultOption.codecType
                                   else o.codecType }

/-- Model of the whole `Client.receive` loop over a finite trace: each list
entry is one successfully read header with the outcome of that iteration's
body read; after the list, the next `ReadHeader` fails with `finalReadErr`.
The loop exits as soon as an iteration produces a non-nil error, and always
finishes by running `terminateCalls` with the terminal error. -/
def receive : ClientState → List (Header × BodyRead) → String → ClientState × List Call
  | st, [], finalReadErr => terminateCalls st finalReadErr
  | st, (h, b) :: rest, finalReadErr =>
    let r := receiveStep st h b
    match r.loopErr with
    | some e => terminateCalls r.state e
    | none => receive r.state rest finalReadErr

/-! ### Helper lemmas -/

/-- Deleting a key from the pending table makes its lookup fail. -/
theorem mapLookup_mapErase_self (m : List (Nat × Call)) (k : Nat) :
    mapLookup (mapErase m k) k = none := by
  unfold mapLookup mapErase
  rw [Option.map_eq_none', List.find?_eq_none]
  intro x hx
  have hpred := List.of_mem_filter hx
  simp only [bne_iff_ne, ne_eq] at hpred
  simp [hpred]

/-- Reducing a `range'` mod `M` elementwise only depends on the residue of
the base: bases with equal residues give equal reduced lists. -/
theorem map_mod_range'_congr (M : Nat) :
    ∀ (n s t : Nat), s % M = t % M →
      (List.range' s n).map (fun x => x % M) = (List.range' t n).map (fun x => x % M) := by
  intro n
  induction n with
  | zero =>
    intro s t h
    rfl
  | succ n ih =>
    intro s t h
    simp only [List.range'_succ, List.map_cons]
    rw [h]
    exact congrArg (List.cons (t % M)) (ih (s + 1) (t + 1) (by rw [Nat.add_mod s 1 M, Nat.add_mod t 1 M, h]))

/-- On a live client whose counter is a valid `uint64` value, registering a
list of calls assigns the consecutive sequence numbers starting at the
current counter, each reduced mod `2 ^ 64` (the `uint64` wraparound). -/
theorem registerMany_live_seqs (cs : List Call) (st : ClientState)
    (hc : st.closing = false) (hs : st.shutdown = false) (hseq : st.seq < 2 ^ 64) :
    (registerMany st cs).2 = (List.range' st.seq cs.length).map (fun x => x % 2 ^ 64) := by
  induction cs generalizing st with
  | nil => rfl
  | cons c cs ih =>
    have h1 : registerCall st c =
        ({ st with pending := mapInsert st.pending st.seq { c with seq := st.seq },
                   seq := (st.seq + 1) % 2 ^ 64 },
         { c with seq := st.seq }, .ok st.seq) := by
      simp [registerCall, hc, hs]
    have h2 := ih { st with pending := mapInsert st.pending st.seq { c with seq := st.seq },
                            seq := (st.seq + 1) % 2 ^ 64 } hc hs (Nat.mod_lt _ (by norm_num))
    simp only [registerMany, h1, List.length_cons, List.range'_succ, List.map_cons]
    rw [h2, Nat.mod_eq_of_lt hseq]
    exact congrArg (List.cons st.seq)
      (map_mod_range'_congr (2 ^ 64) cs.length _ _ (Nat.mod_mod_of_dvd _ dvd_rfl))

/-- The receive loop always finishes in a `terminateCalls` sweep with some
terminal error. -/
theorem receive_ends_in_terminateCalls (events : List (Header × BodyRead))
    (st : ClientState) (ferr : String) :
    ∃ st1 e, receive st events ferr = terminateCalls st1 e := by
  induction events generalizing st with
  | nil => exact ⟨st, ferr, rfl⟩
  | cons ev rest ih =>
    obtain ⟨h, b⟩ := ev
    by_cases hl : (receiveStep st h b).loopErr = none
    · simp only [receive, hl]
      exact ih (receiveStep st h b).state
    · obtain ⟨e, he⟩ := Option.ne_none_iff_exists'.mp hl
      exact ⟨(receiveStep st h b).state, e, by simp [receive, he]⟩

/-! ### Claims -/

/-- C1 (counterexample): the claim says the pending table is empty after the
shutdown sweep. At a concrete client with one registered call, running
`terminateCalls` (what the receive loop does on a terminal error) leaves
that entry in the pending table: the Go code never deletes it. -/
theorem terminateCalls_pending_not_cleared :
    (terminateCalls
      { seq := 5,
        pending := [(3, { seq := 3, serviceMethod := "User.Sum", args := "a",
                          reply := none, error := none, doneCount := 0 })],
        closing := false, shutdown := false }
      "read failure").1.pending ≠ [] := by
  decide

/-- C1 (amended): when the receive loop terminates with an error, the loop
always ends in a `terminateCalls` sweep; the sweep sets the shutdown flag
and completes every pending call exactly once with that error (error field
set, Done channel signaled once), but the pending table keeps all its
entries (only their calls now carry the error) — it is not emptied. -/
theorem receive_terminate_sweep :
    (∀ (st : ClientState) (err : String),
      (terminateCalls st err).1.shutdown = true ∧
      (terminateCalls st err).2 =
        st.pending.map (fun p => { p.2 with error := some err, doneCount := p.2.doneCount + 1 }) ∧
      (terminateCalls st err).1.pending =
        st.pending.map (fun p => (p.1, { p.2 with error := some err, doneCount := p.2.doneCount + 1 })) ∧
      (terminateCalls st err).1.pending.length = st.pending.length) ∧
    (∀ (events : List (Header × BodyRead)) (st : ClientState) (ferr : String),
      ∃ st1 e, receive st events ferr = terminateCalls st1 e) := by
  constructor
  · intro st err
    refine ⟨rfl, rfl, rfl, ?_⟩
    simp [terminateCalls]
  · exact receive_ends_in_terminateCalls

/-- C2: the server serves requests on a connection precisely when the
decoded Option carries the sentinel magic number and a codec tag with a
registered constructor; otherwise `ServeConn` closes the connection without
serving anything. -/
theorem ServeConn_serves_iff (opt : ProtocolOption) :
    (ServeConn (.ok opt) ≠ .closedNoServe ↔
      opt.magicNumber = MagicNumber ∧ (NewCodecFuncMap opt.codecType).isSome) := by
  constructor
  · intro hne
    by_cases hm : opt.magicNumber = MagicNumber
    · refine ⟨hm, ?_⟩
      cases hf : NewCodecFuncMap opt.codecType with
      | none => exact absurd (by simp [ServeConn, hm, hf]) hne
      | some f => simp
    · exact absurd (by simp [ServeConn, hm]) hne
  · rintro ⟨hm, hf⟩
    obtain ⟨f, hf⟩ := Option.isSome_iff_exists.mp hf
    simp [ServeConn, hm, hf]

/-- C3 (counterexample): the claim says a request whose body fails to decode
is answered with an error-bearing header and the invalid-request placeholder
body. At a concrete input (header read fine with seq 7, body decode fails),
the server instead dispatches the request normally and answers with the
canned reply and an unchanged, empty-error header. -/
theorem serveCodec_body_decode_error_counterexample :
    serveCodecStep (.ok { serviceMethod := "User.Sum", seq := 7, error := "" })
        (.error "gob decode error") =
      .handle { h := { serviceMethod := "User.Sum", seq := 7, error := "" }, argv := "" } ∧
    serverResponse (.ok { serviceMethod := "User.Sum", seq := 7, error := "" })
        (.error "gob decode error") =
      some { h := { serviceMethod := "User.Sum", seq := 7, error := "" },
             body := .str "rpc resp 7" } := by
  exact ⟨rfl, rfl⟩

/-- C3 (amended): when the header read succeeds but the body decode fails,
`readRequest` only logs the decode error and returns a nil error, so the
request is dispatched normally with its argument left at the zero value, is
answered with the canned reply under the request's unchanged header (no
error set, no placeholder body), and the loop continues (no break). -/
theorem serveCodec_body_decode_error_served_normally (h : Header) (e : String) :
    readRequest (.ok h) (.error e) = (some { h := h, argv := "" }, none) ∧
    serveCodecStep (.ok h) (.error e) = .handle { h := h, argv := "" } ∧
    serverResponse (.ok h) (.error e) =
      some { h := h, body := .str ("rpc resp " ++ Nat.repr h.seq) } := by
  exact ⟨rfl, rfl, rfl⟩

/-- C4 (counterexample): the claim says no number N of successful
registrations ever assigns sequence number 0 to a real call. At the
concrete input of N = 2 ^ 64 registrations on a fresh client, the `uint64`
sequence counter wraps around and the last registration assigns 0. -/
theorem registerMany_wraparound_assigns_zero :
    0 ∈ (registerMany newClientCodec
        (List.replicate (2 ^ 64)
          { seq := 0, serviceMethod := "User.Sum", args := "a", reply := none,
            error := none, doneCount := 0 })).2 := by
  have h := registerMany_live_seqs
    (List.replicate (2 ^ 64)
      { seq := 0, serviceMethod := "User.Sum", args := "a", reply := none,
        error := none, doneCount := 0 })
    newClientCodec rfl rfl (show (1 : Nat) < 2 ^ 64 by norm_num)
  rw [show newClientCodec.seq = 1 from rfl] at h
  rw [h, List.length_replicate]
  exact List.mem_map.mpr ⟨2 ^ 64, List.mem_range'_1.mpr (by omega), Nat.mod_self _⟩

/-- C4 (amended): starting from a fresh client (`newClientCodec` state,
sequence counter 1), any number N < 2 ^ 64 of successful registrations
assigns exactly the consecutive sequence numbers 1, 2, …, N — pairwise
distinct and never 0; only when the `uint64` counter wraps at the
2 ^ 64-th registration does 0 get assigned. -/
theorem registerMany_assigns_consecutive_seqs (calls : List Call)
    (hN : calls.length < 2 ^ 64) :
    (registerMany newClientCodec calls).2 = List.range' 1 calls.length ∧
    (registerMany newClientCodec calls).2.Nodup ∧
    0 ∉ (registerMany newClientCodec calls).2 := by
  have h := registerMany_live_seqs calls newClientCodec rfl rfl
    (show (1 : Nat) < 2 ^ 64 by norm_num)
  rw [show newClientCodec.seq = 1 from rfl] at h
  have hid : (List.range' 1 calls.length).map (fun x => x % 2 ^ 64) =
      List.range' 1 calls.length := by
    have hcg : ∀ x ∈ List.range' 1 calls.length, x % 2 ^ 64 = id x := by
      intro x hx
      have hx2 := List.mem_range'_1.mp hx
      exact Nat.mod_eq_of_lt (by omega)
    rw [List.map_congr_left hcg, List.map_id]
  rw [hid] at h
  refine ⟨h, ?_, ?_⟩
  · rw [h]
    exact List.nodup_range' 1 calls.length
  · rw [h]
    simp [List.mem_range'_1]

/-- C4 witness: two concrete registrations on a fresh client satisfy the
bound and receive sequence numbers [1, 2] — distinct, consecutive from 1,
and nonzero. -/
theorem registerMany_assigns_consecutive_seqs_witness :
    ([{ seq := 0, serviceMethod := "User.Sum", args := "x", reply := none, error := none, doneCount := 0 },
      { seq := 0, serviceMethod := "User.Sum", args := "y", reply := none, error := none, doneCount := 0 }] : List Call).length < 2 ^ 64 ∧
    ((registerMany newClientCodec
        [{ seq := 0, serviceMethod := "User.Sum", args := "x", reply := none, error := none, doneCount := 0 },
         { seq := 0, serviceMethod := "User.Sum", args := "y", reply := none, error := none, doneCount := 0 }]).2 =
       List.range' 1
         ([{ seq := 0, serviceMethod := "User.Sum", args := "x", reply := none, error := none, doneCount := 0 },
           { seq := 0, serviceMethod := "User.Sum", args := "y", reply := none, error := none, doneCount := 0 }] : List Call).length ∧
     (registerMany newClientCodec
        [{ seq := 0, serviceMethod := "User.Sum", args := "x", reply := none, error := none, doneCount := 0 },
         { seq := 0, serviceMethod := "User.Sum", args := "y", reply := none, error := none, doneCount := 0 }]).2.Nodup ∧
     0 ∉ (registerMany newClientCodec
        [{ seq := 0, serviceMethod := "User.Sum", args := "x", reply := none, error := none, doneCount := 0 },
         { seq := 0, serviceMethod := "User.Sum", args := "y", reply := none, error := none, doneCount := 0 }]).2) :=
  ⟨by norm_num,
   registerMany_assigns_consecutive_seqs
     [{ seq := 0, serviceMethod := "User.Sum", args := "x", reply := none, error := none, doneCount := 0 },
      { seq := 0, serviceMethod := "User.Sum", args := "y", reply := none, error := none, doneCount := 0 }] (by norm_num)⟩

/-- C5: for every response header the receive loop processes, the matching
entry is removed from the pending table first, the body is always consumed,
and then exactly one of three outcomes occurs: no entry matched — nothing
completes and the loop goes on with the body-read result; the header carries
a server error — the call completes with that error and the body is
discarded; otherwise the body is decoded into the call's reply and the call
completes with no error, or with an error prefixed with "reading body " when
the decode fails. -/
theorem receiveStep_trichotomy (st : ClientState) (h : Header) (body : BodyRead) :
    (receiveStep st h body).bodyConsumed = true ∧
    (receiveStep st h body).state.pending = mapErase st.pending h.seq ∧
    (match mapLookup st.pending h.seq with
     | none =>
       (receiveStep st h body).completed = none ∧
       (receiveStep st h body).loopErr = bodyReadErr body
     | some call =>
       if h.error ≠ "" then
         (receiveStep st h body).completed =
           some { call with error := some h.error, doneCount := call.doneCount + 1 } ∧
         (receiveStep st h body).loopErr = bodyReadErr body
       else
         match body with
         | .ok v =>
           (receiveStep st h body).completed =
             some { call with reply := some v, doneCount := call.doneCount + 1 } ∧
           (receiveStep st h body).loopErr = none
         | .fail e =>
           (receiveStep st h body).completed =
             some { call with error := some ("reading body " ++ e), doneCount := call.doneCount + 1 } ∧
           (receiveStep st h body).loopErr = some e) := by
  cases hc : mapLookup st.pending h.seq with
  | none => simp [receiveStep, removeCall, hc, bodyReadErr]
  | some call =>
    by_cases he : h.error = ""
    · cases body with
      | ok v => simp [receiveStep, removeCall, hc, he]
      | fail e => simp [receiveStep, removeCall, hc, he]
    · simp [receiveStep, removeCall, hc, he, bodyReadErr]

/-- C6: dispatching a call while the client is closing or shut down leaves
the whole client state (pending table and sequence counter included)
untouched, never reaches the codec write, and completes the call at once
with the shutdown error. -/
theorem send_unavailable_rejects (st : ClientState) (call : Call) (w : Option String)
    (hun : st.closing = true ∨ st.shutdown = true) :
    send st call w =
      { state := st,
        completed := some { call with error := some ErrShutdown, doneCount := call.doneCount + 1 },
        wroteAttempted := false, sentHeader := none } := by
  have hb : (st.closing || st.shutdown) = true := by
    rcases hun with hx | hx <;> simp [hx]
  simp [send, registerCall, hb]

/-- C6 witness: a concrete closing client rejects a concrete call with the
shutdown error and an untouched state. -/
theorem send_unavailable_rejects_witness :
    send { seq := 4, pending := [], closing := true, shutdown := false }
        { seq := 0, serviceMethod := "User.Sum", args := "a", reply := none,
          error := none, doneCount := 0 } none =
      { state := { seq := 4, pending := [], closing := true, shutdown := false },
        completed := some { seq := 0, serviceMethod := "User.Sum", args := "a",
                            reply := none, error := some ErrShutdown, doneCount := 1 },
        wroteAttempted := false, sentHeader := none } :=
  send_unavailable_rejects
    { seq := 4, pending := [], closing := true, shutdown := false }
    { seq := 0, serviceMethod := "User.Sum", args := "a", reply := none,
      error := none, doneCount := 0 } none (Or.inl rfl)

/-- C7: when the codec write fails after a successful registration, the
write-failure block removes the call's sequence from the pending table in
every case, and completes a call exactly when one was still present — with
the write error and one Done signal; when the entry was already consumed,
no call is completed by the send path. -/
theorem sendWriteFailHandler_spec (st : ClientState) (s : Nat) (werr : String) :
    (sendWriteFailHandler st s werr).1.pending = mapErase st.pending s ∧
    mapLookup (sendWriteFailHandler st s werr).1.pending s = none ∧
    (sendWriteFailHandler st s werr).2 =
      (mapLookup st.pending s).map
        (fun c => { c with error := some werr, doneCount := c.doneCount + 1 }) := by
  cases hc : mapLookup st.pending s with
  | none => simp [sendWriteFailHandler, removeCall, hc, mapLookup_mapErase_self]
  | some c => simp [sendWriteFailHandler, removeCall, hc, mapLookup_mapErase_self]

/-- C8: every invocation of the Gob codec's Write flushes the buffered
writer; it returns a nil error precisely when both the header and the body
encode succeed, and it closes the underlying connection exactly when it
returns a non-nil error. -/
theorem gobWrite_flush_close_spec (encHeader encBody : Option String) :
    (GobCodec.Write encHeader encBody).flushed = true ∧
    ((GobCodec.Write encHeader encBody).result = none ↔
      encHeader = none ∧ encBody = none) ∧
    (GobCodec.Write encHeader encBody).closed =
      (GobCodec.Write encHeader encBody).result.isSome := by
  cases encHeader <;> cases encBody <;> simp [GobCodec.Write]

/-- C9: the handler's reply body is exactly "rpc resp " followed by the
decimal rendering of the request's sequence number; in particular a request
with seq 3 is answered with "rpc resp 3", and feeding that response to the
client's receive loop completes the pending call for seq 3 with no error
and reply "rpc resp 3". -/
theorem handleRequest_reply_roundtrip (req : Request) :
    handleRequest req = { h := req.h, body := .str ("rpc resp " ++ Nat.repr req.h.seq) } ∧
    handleRequest { h := { serviceMethod := "User.Sum", seq := 3, error := "" },
                    argv := "req 3" } =
      { h := { serviceMethod := "User.Sum", seq := 3, error := "" },
        body := .str "rpc resp 3" } ∧
    receiveStep
        { seq := 4,
          pending := [(3, { seq := 3, serviceMethod := "User.Sum", args := "req 3",
                            reply := none, error := none, doneCount := 0 })],
          closing := false, shutdown := false }
        { serviceMethod := "User.Sum", seq := 3, error := "" } (.ok "rpc resp 3") =
      { state := { seq := 4, pending := [], closing := false, shutdown := false },
        completed := some { seq := 3, serviceMethod := "User.Sum", args := "req 3",
                            reply := some "rpc resp 3", error := none, doneCount := 1 },
        bodyConsumed := true, loopErr := none } := by
  exact ⟨rfl, rfl, by decide⟩

/-- C10: parseOptions only fails when more than one option was supplied,
every option it returns carries the sentinel magic number (so a client
built through Dial always passes the server's magic check), and a single
supplied option gets its magic number overwritten and an empty codec type
replaced by the default Gob tag. -/
theorem parseOptions_normalizes :
    (∀ opts : List (Option ProtocolOption),
      (match parseOptions opts with
       | .error _ => 1 < opts.length
       | .ok o => o.magicNumber = MagicNumber)) ∧
    (∀ o : ProtocolOption,
      parseOptions [some o] =
        .ok { o with magicNumber := MagicNumber,
                     codecType := if o.codecType = "" then GobType else o.codecType }) := by
  constructor
  · intro opts
    rcases opts with _ | ⟨o?, rest⟩
    · exact rfl
    · rcases o? with _ | o
      · exact rfl
      · rcases rest with _ | ⟨o2, rest2⟩
        · exact rfl
        · simp [parseOptions]
  · intro o
    simp [parseOptions, DefaultOption]
